import Mathlib

/-!
Verification of the ephemeral code-paired chat core
(`src/context/ChatContext.tsx`).

The embedding models the module as a state machine on a `World`:
- `rooms` is the process-wide registry (the module-level
  `Map<string, {creator, listeners}>`), an association list with
  JS-`Map` semantics (`set` replaces in place or appends, `get` looks
  up, `delete` removes);
- `sessions` maps a session identity (the per-provider `userId`) to
  that provider instance's local React state
  (`messages`, `isPaired`, `pairingCode`, `messageCallback`);
- a delivery callback registered by `joinChat` is represented by a
  fresh numeric token `cbId` drawn from the `nextCb` counter, paired
  with the identity of the session whose log it appends to (function
  identity comparison in the source becomes token equality here);
- `uuidv4()` is modelled by the `nextId` counter (fresh, pairwise
  distinct ids) and `Date.now()` by the `clock` counter;
- the crypto provider is an external collaborator: each operation's
  outcome (`generateKeyPair` success, `generatePairingCode` result)
  enters as a parameter of the transition.

JavaScript truthiness is kept: the guards `!pairingCode` in
`sendMessage` and `pairingCode && messageCallback` in `leaveChat`
treat the empty string like `null`, so the embedding tests
`code ≠ ""` exactly where the source tests truthiness of the string.
-/

inductive MsgType where
  | text
  | image
  | audio
deriving DecidableEq, Repr

inductive Sender where
  | self
  | peer
deriving DecidableEq, Repr

/-- `Message` from `src/types`, as constructed in `ChatContext.tsx`. -/
structure Message where
  id : Nat
  content : String
  type : MsgType
  timestamp : Nat
  sender : Sender
  encrypted : Bool
deriving DecidableEq, Repr

/-- One registered delivery callback: its identity token and the
session whose message log it appends to. -/
structure Subscriber where
  cbId : Nat
  owner : Nat
deriving DecidableEq, Repr

/-- A registry entry: `{ creator: string, listeners: Set<callback> }`.
The listener set is kept in insertion order, as a JS `Set` iterates. -/
structure Room where
  creator : Nat
  listeners : List Subscriber
deriving DecidableEq, Repr

/-- The local React state of one `ChatProvider` instance. -/
structure Session where
  messages : List Message
  isPaired : Bool
  pairingCode : Option String
  messageCallback : Option Nat
deriving DecidableEq, Repr

/-- Whole-process state: the shared `rooms` map plus every session's
local state and the freshness counters. -/
structure World where
  rooms : List (String × Room)
  sessions : Nat → Session
  nextId : Nat
  clock : Nat
  nextCb : Nat

/-- `rooms.get(code)`. -/
def roomsGet (rs : List (String × Room)) (code : String) : Option Room :=
  (rs.find? (fun p => p.1 == code)).map (fun p => p.2)

/-- `rooms.set(code, r)`: replace the entry in place if the key is
present, else append (JS `Map` insertion-order semantics). -/
def roomsSet (rs : List (String × Room)) (code : String) (r : Room) :
    List (String × Room) :=
  if rs.any (fun p => p.1 == code) then
    rs.map (fun p => if p.1 == code then (code, r) else p)
  else
    rs ++ [(code, r)]

/-- `rooms.delete(code)`. -/
def roomsDelete (rs : List (String × Room)) (code : String) :
    List (String × Room) :=
  rs.filter (fun p => p.1 != code)

/-- Replace session `i`'s local state. -/
def setSession (w : World) (i : Nat) (s : Session) : World :=
  { w with sessions := fun j => if j = i then s else w.sessions j }

/-- The initial local state of a freshly mounted provider. -/
def blankSession : Session :=
  { messages := [], isPaired := false, pairingCode := none,
    messageCallback := none }

/-- A process that has not opened any room yet. -/
def initialWorld : World :=
  { rooms := [], sessions := fun _ => blankSession,
    nextId := 0, clock := 0, nextCb := 0 }

/-- The error taxonomy of the session-facing API: crypto-provider
failure and sending while unpaired. -/
inductive ChatError where
  | cryptoError
  | notPaired
deriving DecidableEq, Repr

/-- `generateCode()`: bootstrap keys, obtain a code from the provider,
create the room with an empty listener set, mark the session paired.
The provider outcomes enter as `kpOk` (did `generateKeyPair` succeed)
and `codeRes` (the code `generatePairingCode` produced, `none` on
failure); a provider failure is rethrown with no state change. -/
def generateCode (w : World) (i : Nat) (kpOk : Bool)
    (codeRes : Option String) : World × Except ChatError String :=
  if !kpOk then (w, .error .cryptoError)
  else
    match codeRes with
    | none => (w, .error .cryptoError)
    | some code =>
      let s := w.sessions i
      let w1 := { w with rooms := roomsSet w.rooms code ⟨i, []⟩ }
      (setSession w1 i
        { s with pairingCode := some code, isPaired := true }, .ok code)

/-- `joinChat(code)`: look up the room, reject a missing room and
self-join with `false`, then bootstrap keys, register a fresh delivery
callback and mark the session paired.  The surrounding `try/catch`
converts a `generateKeyPair` failure into `false` (nothing is thrown
to the caller), with no state change because the failure happens
before any assignment. -/
def joinChat (w : World) (i : Nat) (code : String) (kpOk : Bool) :
    World × Except ChatError Bool :=
  match roomsGet w.rooms code with
  | none => (w, .ok false)
  | some room =>
    if room.creator = i then (w, .ok false)
    else if !kpOk then (w, .ok false)
    else
      let cb := w.nextCb
      let s := w.sessions i
      let w1 := { w with
        rooms := roomsSet w.rooms code
          { room with listeners := room.listeners ++ [⟨cb, i⟩] },
        nextCb := w.nextCb + 1 }
      (setSession w1 i
        { s with pairingCode := some code, messageCallback := some cb,
                 isPaired := true }, .ok true)

/-- The body of the delivery callback registered by `joinChat`: build
a `Message` with a fresh id, the current time, `sender = peer` and
`encrypted = true`, and append it to the owner's log. -/
def deliverTo (w : World) (j : Nat) (content : String) (t : MsgType) :
    World :=
  let s := w.sessions j
  let m : Message :=
    { id := w.nextId, content := content, type := t,
      timestamp := w.clock, sender := .peer, encrypted := true }
  setSession { w with nextId := w.nextId + 1, clock := w.clock + 1 } j
    { s with messages := s.messages ++ [m] }

/-- `room.listeners.forEach(...)`: invoke every listener except the
sender's own callback (`listener !== messageCallback`), in insertion
order, passing the raw `{content, type}`. -/
def broadcast (w : World) (excluded : Option Nat)
    (ls : List Subscriber) (content : String) (t : MsgType) : World :=
  match ls with
  | [] => w
  | l :: rest =>
    let w' := if excluded = some l.cbId then w
              else deliverTo w l.owner content t
    broadcast w' excluded rest content t

/-- `sendMessage(content, type)`: throw when not paired (an absent or
empty `pairingCode` is falsy), else append the local echo
(`sender = self`, fresh id, `encrypted = true`) and fan out to the
room's listeners if the room still exists; a missing room is silent. -/
def sendMessage (w : World) (i : Nat) (content : String) (t : MsgType) :
    World × Except ChatError Unit :=
  let s := w.sessions i
  match s.pairingCode with
  | none => (w, .error .notPaired)
  | some code =>
    if !s.isPaired || code == "" then (w, .error .notPaired)
    else
      let m : Message :=
        { id := w.nextId, content := content, type := t,
          timestamp := w.clock, sender := .self, encrypted := true }
      let w1 := setSession
        { w with nextId := w.nextId + 1, clock := w.clock + 1 } i
        { s with messages := s.messages ++ [m] }
      match roomsGet w1.rooms code with
      | none => (w1, .ok ())
      | some room =>
        (broadcast w1 s.messageCallback room.listeners content t,
         .ok ())

/-- `leaveChat()`: if a (truthy) code and a callback exist, remove the
callback from the room's listener set and delete the room when the set
becomes empty; then clear the local state (`crypto.reset()` has no
modelled state). -/
def leaveChat (w : World) (i : Nat) : World :=
  let s := w.sessions i
  let w1 :=
    match s.pairingCode, s.messageCallback with
    | some code, some cb =>
      if code == "" then w
      else
        match roomsGet w.rooms code with
        | some room =>
          let ls := room.listeners.filter (fun l => l.cbId != cb)
          if ls.isEmpty then { w with rooms := roomsDelete w.rooms code }
          else { w with rooms := roomsSet w.rooms code
                          { room with listeners := ls } }
        | none => w
    | _, _ => w
  setSession w1 i blankSession

/-- No listener of the session's room delivers back into the sender's
own log: every listener owned by the sender is its own (excluded)
callback.  This is the normal shape of a room; only a session that
joins the same room twice can violate it. -/
def noSelfDelivery (w : World) (i : Nat) : Prop :=
  ∀ code room, (w.sessions i).pairingCode = some code →
    roomsGet w.rooms code = some room →
    ∀ l ∈ room.listeners, l.owner = i →
      (w.sessions i).messageCallback = some l.cbId

/-- Session `i`'s log has pairwise-distinct ids, all below the id
counter (the uuid-freshness contract). -/
def idsFresh (w : World) (i : Nat) : Prop :=
  ((w.sessions i).messages.map Message.id).Pairwise (fun a b => a ≠ b) ∧
  ∀ m ∈ (w.sessions i).messages, m.id < w.nextId

/-- A sequence of `sendMessage` calls by session `i`, in order. -/
def sendAll (w : World) (i : Nat) (msgs : List (String × MsgType)) :
    World :=
  match msgs with
  | [] => w
  | (x, t) :: rest => sendAll (sendMessage w i x t).1 i rest

/-- Demo run: in a fresh process, session 0 generates the code `"C"`
(both provider calls succeed). -/
def demoGen : World := (generateCode initialWorld 0 true (some "C")).1

/-- Demo run: session 1 then joins with `"C"`. -/
def demoJoin : World := (joinChat demoGen 1 "C" true).1

/-- Demo run: the sole subscriber (session 1) leaves again, deleting
the room while session 0 stays paired. -/
def demoLeft : World := leaveChat demoJoin 1

/-! ### Registry lemmas -/

theorem roomsGet_map_set (rs : List (String × Room)) (code : String)
    (r : Room) (h : rs.any (fun p => p.1 == code) = true) :
    roomsGet (rs.map (fun p => if p.1 == code then (code, r) else p))
      code = some r := by
  induction rs with
  | nil => simp at h
  | cons p rest ih =>
    by_cases hp : p.1 == code
    · simp [roomsGet, List.find?, hp]
    · simp only [List.any_cons, hp, Bool.false_or] at h
      simp only [List.map_cons, if_neg hp]
      simpa [roomsGet, List.find?, hp] using ih h

theorem roomsGet_append_new (rs : List (String × Room)) (code : String)
    (r : Room) (h : rs.any (fun p => p.1 == code) = false) :
    roomsGet (rs ++ [(code, r)]) code = some r := by
  induction rs with
  | nil => simp [roomsGet]
  | cons p rest ih =>
    simp only [List.any_cons, Bool.or_eq_false_iff] at h
    simp only [List.cons_append]
    simpa [roomsGet, List.find?, h.1] using ih h.2

/-- Looking up a code right after `rooms.set(code, r)` yields `r`. -/
theorem roomsGet_set_self (rs : List (String × Room)) (code : String)
    (r : Room) : roomsGet (roomsSet rs code r) code = some r := by
  unfold roomsSet
  by_cases h : rs.any (fun p => p.1 == code)
  · rw [if_pos h]; exact roomsGet_map_set rs code r h
  · rw [if_neg h]
    exact roomsGet_append_new rs code r (Bool.of_not_eq_true h)

/-- After `rooms.delete(code)` the code no longer resolves. -/
theorem roomsGet_delete_self (rs : List (String × Room)) (code : String) :
    roomsGet (roomsDelete rs code) code = none := by
  unfold roomsGet roomsDelete
  rw [Option.map_eq_none', List.find?_eq_none]
  intro p hp
  have := List.of_mem_filter hp
  simp only [bne_iff_ne, ne_eq] at this
  simp [this]

/-! ### Frame lemmas for delivery and fan-out -/

theorem setSession_sessions (w : World) (i : Nat) (s : Session)
    (k : Nat) :
    (setSession w i s).sessions k = if k = i then s else w.sessions k :=
  rfl

theorem deliverTo_rooms (w : World) (j : Nat) (c : String)
    (t : MsgType) : (deliverTo w j c t).rooms = w.rooms := rfl

theorem deliverTo_nextId (w : World) (j : Nat) (c : String)
    (t : MsgType) : (deliverTo w j c t).nextId = w.nextId + 1 := rfl

theorem deliverTo_session_fields (w : World) (j : Nat) (c : String)
    (t : MsgType) (k : Nat) :
    ((deliverTo w j c t).sessions k).isPaired = (w.sessions k).isPaired ∧
    ((deliverTo w j c t).sessions k).pairingCode
      = (w.sessions k).pairingCode ∧
    ((deliverTo w j c t).sessions k).messageCallback
      = (w.sessions k).messageCallback := by
  unfold deliverTo
  rw [setSession_sessions]
  by_cases h : k = j <;> simp [h]

theorem deliverTo_messages_ne (w : World) (j : Nat) (c : String)
    (t : MsgType) (k : Nat) (h : k ≠ j) :
    (deliverTo w j c t).sessions k = w.sessions k := by
  unfold deliverTo
  rw [setSession_sessions, if_neg h]

theorem deliverTo_messages_self (w : World) (j : Nat) (c : String)
    (t : MsgType) :
    ((deliverTo w j c t).sessions j).messages
      = (w.sessions j).messages ++
        [{ id := w.nextId, content := c, type := t, timestamp := w.clock,
           sender := .peer, encrypted := true }] := by
  unfold deliverTo
  rw [setSession_sessions, if_pos rfl]

theorem broadcast_rooms (ls : List Subscriber) (w : World)
    (ex : Option Nat) (c : String) (t : MsgType) :
    (broadcast w ex ls c t).rooms = w.rooms := by
  induction ls generalizing w with
  | nil => rfl
  | cons l rest ih =>
    rw [broadcast]
    split
    · exact ih w
    · rw [ih, deliverTo_rooms]

theorem broadcast_nextId_le (ls : List Subscriber) (w : World)
    (ex : Option Nat) (c : String) (t : MsgType) :
    w.nextId ≤ (broadcast w ex ls c t).nextId := by
  induction ls generalizing w with
  | nil => exact Nat.le_refl _
  | cons l rest ih =>
    rw [broadcast]
    split
    · exact ih w
    · calc w.nextId ≤ w.nextId + 1 := Nat.le_succ _
        _ = (deliverTo w l.owner c t).nextId := (deliverTo_nextId ..).symm
        _ ≤ _ := ih _

theorem broadcast_nextId_mono (ls : List Subscriber) (w : World)
    (ex : Option Nat) (c : String) (t : MsgType) {n : Nat}
    (h : n ≤ w.nextId) : n ≤ (broadcast w ex ls c t).nextId :=
  h.trans (broadcast_nextId_le ls w ex c t)

theorem broadcast_session_fields (ls : List Subscriber) (w : World)
    (ex : Option Nat) (c : String) (t : MsgType) (k : Nat) :
    ((broadcast w ex ls c t).sessions k).isPaired
      = (w.sessions k).isPaired ∧
    ((broadcast w ex ls c t).sessions k).pairingCode
      = (w.sessions k).pairingCode ∧
    ((broadcast w ex ls c t).sessions k).messageCallback
      = (w.sessions k).messageCallback := by
  induction ls generalizing w with
  | nil => exact ⟨rfl, rfl, rfl⟩
  | cons l rest ih =>
    rw [broadcast]
    split
    · exact ih w
    · obtain ⟨h1, h2, h3⟩ := ih (deliverTo w l.owner c t)
      obtain ⟨g1, g2, g3⟩ := deliverTo_session_fields w l.owner c t k
      exact ⟨h1.trans g1, h2.trans g2, h3.trans g3⟩

/-- Fan-out only ever appends peer-tagged messages to any log. -/
theorem broadcast_messages_peer_extra (ls : List Subscriber) (w : World)
    (ex : Option Nat) (c : String) (t : MsgType) (k : Nat) :
    ∃ extra, ((broadcast w ex ls c t).sessions k).messages
        = (w.sessions k).messages ++ extra ∧
      ∀ m ∈ extra, m.sender = Sender.peer := by
  induction ls generalizing w with
  | nil => exact ⟨[], by rw [broadcast]; simp, by simp⟩
  | cons l rest ih =>
    rw [broadcast]
    split
    · exact ih w
    · obtain ⟨extra, hx, hpeer⟩ := ih (deliverTo w l.owner c t)
      by_cases h : k = l.owner
      · subst h
        refine ⟨Message.mk w.nextId c t w.clock .peer true :: extra,
          ?_, ?_⟩
        · rw [hx, deliverTo_messages_self, List.append_assoc]
          rfl
        · intro m hm
          rcases List.mem_cons.mp hm with h | h
          · rw [h]
          · exact hpeer m h
      · refine ⟨extra, ?_, hpeer⟩
        rw [hx, deliverTo_messages_ne w l.owner c t k h]

/-- When every listener owned by `k` is exactly the excluded callback,
fan-out leaves `k`'s log untouched (the self-exclusion check). -/
theorem broadcast_messages_excluded (ls : List Subscriber) (w : World)
    (ex : Option Nat) (c : String) (t : MsgType) (k : Nat)
    (h : ∀ l ∈ ls, l.owner = k → ex = some l.cbId) :
    (broadcast w ex ls c t).sessions k = w.sessions k := by
  induction ls generalizing w with
  | nil => rfl
  | cons l rest ih =>
    rw [broadcast]
    split
    · exact ih w (fun l' hl' => h l' (List.mem_cons_of_mem _ hl'))
    · rename_i hne
      have hlk : l.owner ≠ k := fun hkl =>
        hne (h l (List.mem_cons_self _ _) hkl)
      rw [ih _ (fun l' hl' => h l' (List.mem_cons_of_mem _ hl')),
        deliverTo_messages_ne w l.owner c t k (Ne.symm hlk)]

/-! ### The paired send, unfolded once for all -/

/-- Evaluation of `sendMessage` for a paired session: local echo
first, then fan-out when the room still exists. -/
theorem sendMessage_paired_eq (w : World) (i : Nat) (x : String)
    (t : MsgType) (code : String)
    (hp : (w.sessions i).isPaired = true)
    (hc : (w.sessions i).pairingCode = some code) (hne : code ≠ "") :
    sendMessage w i x t =
      (let w1 := setSession
          { w with nextId := w.nextId + 1, clock := w.clock + 1 } i
          { w.sessions i with messages := (w.sessions i).messages ++
              [Message.mk w.nextId x t w.clock .self true] }
       match roomsGet w.rooms code with
       | none => (w1, Except.ok ())
       | some room =>
         (broadcast w1 (w.sessions i).messageCallback room.listeners
            x t, Except.ok ())) := by
  simp only [sendMessage]
  split
  · rename_i heq
    rw [hc] at heq
    exact absurd heq (Option.some_ne_none code)
  · rename_i code' heq
    rw [hc] at heq
    injection heq with heq
    subst heq
    rw [hp]
    have hbeq : (code == "") = false := by
      simp [hne]
    rw [hbeq]
    simp only [Bool.not_true, Bool.false_or, Bool.false_eq_true,
      if_false]
    rfl

theorem broadcast_isPaired (ls : List Subscriber) (w : World)
    (ex : Option Nat) (c : String) (t : MsgType) (k : Nat) :
    ((broadcast w ex ls c t).sessions k).isPaired
      = (w.sessions k).isPaired :=
  (broadcast_session_fields ls w ex c t k).1

theorem broadcast_pairingCode (ls : List Subscriber) (w : World)
    (ex : Option Nat) (c : String) (t : MsgType) (k : Nat) :
    ((broadcast w ex ls c t).sessions k).pairingCode
      = (w.sessions k).pairingCode :=
  (broadcast_session_fields ls w ex c t k).2.1

theorem broadcast_messageCallback (ls : List Subscriber) (w : World)
    (ex : Option Nat) (c : String) (t : MsgType) (k : Nat) :
    ((broadcast w ex ls c t).sessions k).messageCallback
      = (w.sessions k).messageCallback :=
  (broadcast_session_fields ls w ex c t k).2.2

/-- `sendMessage` never touches the room registry. -/
theorem sendMessage_rooms (w : World) (i : Nat) (x : String)
    (t : MsgType) : (sendMessage w i x t).1.rooms = w.rooms := by
  simp only [sendMessage]
  split
  · rfl
  · split
    · rfl
    · split
      · rfl
      · rw [broadcast_rooms]
        rfl

/-- `sendMessage` never changes any session's pairing fields. -/
theorem sendMessage_session_fields (w : World) (i : Nat) (x : String)
    (t : MsgType) (k : Nat) :
    ((sendMessage w i x t).1.sessions k).isPaired
      = (w.sessions k).isPaired ∧
    ((sendMessage w i x t).1.sessions k).pairingCode
      = (w.sessions k).pairingCode ∧
    ((sendMessage w i x t).1.sessions k).messageCallback
      = (w.sessions k).messageCallback := by
  simp only [sendMessage]
  split
  · exact ⟨rfl, rfl, rfl⟩
  · split
    · exact ⟨rfl, rfl, rfl⟩
    · split
      · rw [setSession_sessions]
        by_cases h : k = i <;> simp [h]
      · rw [broadcast_isPaired, broadcast_pairingCode,
          broadcast_messageCallback, setSession_sessions]
        by_cases h : k = i <;> simp [h]

theorem sendMessage_nextId_le (w : World) (i : Nat) (x : String)
    (t : MsgType) : w.nextId ≤ (sendMessage w i x t).1.nextId := by
  simp only [sendMessage]
  split
  · exact Nat.le_refl _
  · split
    · exact Nat.le_refl _
    · split
      · exact Nat.le_succ _
      · dsimp only
        exact broadcast_nextId_mono _ _ _ _ _ (Nat.le_succ _)

/-- A paired send reports success. -/
theorem sendMessage_paired_ok (w : World) (i : Nat) (x : String)
    (t : MsgType) (code : String)
    (hp : (w.sessions i).isPaired = true)
    (hc : (w.sessions i).pairingCode = some code) (hne : code ≠ "") :
    (sendMessage w i x t).2 = Except.ok () := by
  rw [sendMessage_paired_eq w i x t code hp hc hne]
  dsimp only
  split <;> rfl

/-- A paired send bumps the id counter past the echoed message's id. -/
theorem sendMessage_nextId_succ_le (w : World) (i : Nat) (x : String)
    (t : MsgType) (code : String)
    (hp : (w.sessions i).isPaired = true)
    (hc : (w.sessions i).pairingCode = some code) (hne : code ≠ "") :
    w.nextId + 1 ≤ (sendMessage w i x t).1.nextId := by
  rw [sendMessage_paired_eq w i x t code hp hc hne]
  dsimp only
  split
  · exact Nat.le_refl _
  · exact broadcast_nextId_mono _ _ _ _ _ (Nat.le_refl _)

/-- A paired send appends the local echo, followed only by messages
that fan-out delivered back (all tagged `peer`). -/
theorem sendMessage_log_echo (w : World) (i : Nat) (x : String)
    (t : MsgType) (code : String)
    (hp : (w.sessions i).isPaired = true)
    (hc : (w.sessions i).pairingCode = some code) (hne : code ≠ "") :
    ∃ extra, ((sendMessage w i x t).1.sessions i).messages
        = (w.sessions i).messages ++
          [Message.mk w.nextId x t w.clock .self true] ++ extra ∧
      ∀ m ∈ extra, m.sender = Sender.peer := by
  rw [sendMessage_paired_eq w i x t code hp hc hne]
  dsimp only
  split
  · exact ⟨[], by simp [setSession_sessions], by simp⟩
  · obtain ⟨extra, hx, hpeer⟩ :=
      broadcast_messages_peer_extra _ _ ((w.sessions i).messageCallback)
        x t i
    refine ⟨extra, ?_, hpeer⟩
    rw [hx, setSession_sessions, if_pos rfl, List.append_assoc]

/-- Under `noSelfDelivery` the sender's log gains exactly the local
echo and nothing else. -/
theorem sendMessage_log_exact (w : World) (i : Nat) (x : String)
    (t : MsgType) (code : String)
    (hp : (w.sessions i).isPaired = true)
    (hc : (w.sessions i).pairingCode = some code) (hne : code ≠ "")
    (hns : noSelfDelivery w i) :
    ((sendMessage w i x t).1.sessions i).messages
      = (w.sessions i).messages ++
        [Message.mk w.nextId x t w.clock .self true] := by
  rw [sendMessage_paired_eq w i x t code hp hc hne]
  dsimp only
  split
  · simp [setSession_sessions]
  · rename_i room heq
    rw [broadcast_messages_excluded room.listeners _
        ((w.sessions i).messageCallback) x t i
        (fun l hl hown => (hns code room hc heq l hl hown).symm ▸ rfl),
      setSession_sessions, if_pos rfl]

/-- When the room has been deleted, a paired send reduces to the bare
local echo: one self message, nobody else touched. -/
theorem sendMessage_absent (w : World) (i : Nat) (x : String)
    (t : MsgType) (code : String)
    (hp : (w.sessions i).isPaired = true)
    (hc : (w.sessions i).pairingCode = some code) (hne : code ≠ "")
    (habs : roomsGet w.rooms code = none) :
    (sendMessage w i x t).1 = setSession
      { w with nextId := w.nextId + 1, clock := w.clock + 1 } i
      { w.sessions i with messages := (w.sessions i).messages ++
          [Message.mk w.nextId x t w.clock .self true] } := by
  rw [sendMessage_paired_eq w i x t code hp hc hne]
  dsimp only
  rw [habs]

/-- `noSelfDelivery` is stable under sends: they change neither the
registry nor any pairing field. -/
theorem sendMessage_noSelfDelivery (w : World) (i : Nat) (x : String)
    (t : MsgType) (hns : noSelfDelivery w i) :
    noSelfDelivery (sendMessage w i x t).1 i := by
  intro code room hcode hroom l hl hown
  obtain ⟨_, h2, h3⟩ := sendMessage_session_fields w i x t i
  rw [h2] at hcode
  rw [sendMessage_rooms] at hroom
  rw [h3]
  exact hns code room hcode hroom l hl hown

theorem sendMessage_idsFresh (w : World) (i : Nat) (x : String)
    (t : MsgType) (code : String)
    (hp : (w.sessions i).isPaired = true)
    (hc : (w.sessions i).pairingCode = some code) (hne : code ≠ "")
    (hns : noSelfDelivery w i) (hf : idsFresh w i) :
    idsFresh (sendMessage w i x t).1 i := by
  have hlog := sendMessage_log_exact w i x t code hp hc hne hns
  constructor
  · rw [hlog, List.map_append]
    refine List.pairwise_append.mpr ⟨hf.1, List.pairwise_singleton _ _,
      ?_⟩
    intro a ha b hb
    simp only [List.map_cons, List.map_nil, List.mem_singleton] at hb
    subst hb
    obtain ⟨m, hm, hma⟩ := List.mem_map.mp ha
    exact hma ▸ Nat.ne_of_lt (hf.2 m hm)
  · intro m hm
    rw [hlog] at hm
    have hsucc := sendMessage_nextId_succ_le w i x t code hp hc hne
    rcases List.mem_append.mp hm with h | h
    · exact Nat.lt_of_lt_of_le (hf.2 m h)
        (Nat.le_of_succ_le hsucc)
    · simp only [List.mem_singleton] at h
      subst h
      exact Nat.lt_of_succ_le hsucc

/-! ### Pairing and teardown lemmas -/

theorem World.ext_of (w₁ w₂ : World) (hr : w₁.rooms = w₂.rooms)
    (hs : ∀ j, w₁.sessions j = w₂.sessions j)
    (h1 : w₁.nextId = w₂.nextId) (h2 : w₁.clock = w₂.clock)
    (h3 : w₁.nextCb = w₂.nextCb) : w₁ = w₂ := by
  cases w₁
  cases w₂
  simp only [World.mk.injEq]
  exact ⟨hr, funext hs, h1, h2, h3⟩

/-- A successful `generateCode` in fully evaluated form. -/
theorem generateCode_ok (w : World) (i : Nat) (c : String) :
    generateCode w i true (some c) =
      (setSession { w with rooms := roomsSet w.rooms c ⟨i, []⟩ } i
        { w.sessions i with pairingCode := some c, isPaired := true },
       Except.ok c) := rfl

/-- `joinChat` on a missing code is a plain `false`, no state change. -/
theorem joinChat_absent (w : World) (i : Nat) (code : String)
    (kp : Bool) (h : roomsGet w.rooms code = none) :
    joinChat w i code kp = (w, Except.ok false) := by
  unfold joinChat
  rw [h]

/-- `joinChat` on one's own room is a plain `false`, no state change. -/
theorem joinChat_self (w : World) (i : Nat) (code : String) (kp : Bool)
    (room : Room) (h : roomsGet w.rooms code = some room)
    (hcr : room.creator = i) :
    joinChat w i code kp = (w, Except.ok false) := by
  unfold joinChat
  rw [h]
  dsimp only
  rw [if_pos hcr]

/-- A `generateKeyPair` failure inside `joinChat` is caught: the call
returns `false` and changes nothing. -/
theorem joinChat_kp_fail (w : World) (i : Nat) (code : String)
    (room : Room) (h : roomsGet w.rooms code = some room)
    (hcr : room.creator ≠ i) :
    joinChat w i code false = (w, Except.ok false) := by
  unfold joinChat
  rw [h]
  dsimp only
  rw [if_neg hcr]
  rfl

/-- A successful `joinChat` in fully evaluated form: the fresh callback
is registered and the session is paired. -/
theorem joinChat_ok (w : World) (i : Nat) (code : String) (room : Room)
    (h : roomsGet w.rooms code = some room)
    (hcr : room.creator ≠ i) :
    joinChat w i code true =
      (setSession
        { w with
          rooms := roomsSet w.rooms code
            (Room.mk room.creator
              (room.listeners ++ [⟨w.nextCb, i⟩])),
          nextCb := w.nextCb + 1 } i
        { w.sessions i with
            pairingCode := some code,
            messageCallback := some w.nextCb, isPaired := true },
       Except.ok true) := by
  unfold joinChat
  rw [h]
  dsimp only
  rw [if_neg hcr]
  rfl

/-- `leaveChat` with no registered callback skips the registry cleanup
and only clears the local state. -/
theorem leaveChat_no_callback (w : World) (i : Nat)
    (h : (w.sessions i).messageCallback = none) :
    leaveChat w i = setSession w i blankSession := by
  simp only [leaveChat]
  split
  · rename_i code cb hpc hcb
    rw [h] at hcb
    cases hcb
  · rfl

/-- `leaveChat` with no recorded pairing code likewise only clears the
local state. -/
theorem leaveChat_no_code (w : World) (i : Nat)
    (h : (w.sessions i).pairingCode = none) :
    leaveChat w i = setSession w i blankSession := by
  simp only [leaveChat]
  split
  · rename_i code cb hpc hcb
    rw [h] at hpc
    cases hpc
  · rfl

/-- `leaveChat` when this session's callback is the sole subscriber:
the listener set empties, so the room is deleted, and the local state
is cleared. -/
theorem leaveChat_sole (w : World) (i : Nat) (code : String) (cb : Nat)
    (room : Room) (hc : (w.sessions i).pairingCode = some code)
    (hne : code ≠ "") (hcb : (w.sessions i).messageCallback = some cb)
    (hroom : roomsGet w.rooms code = some room)
    (hl : room.listeners = [⟨cb, i⟩]) :
    leaveChat w i =
      setSession { w with rooms := roomsDelete w.rooms code } i
        blankSession := by
  simp only [leaveChat]
  split
  · rename_i code' cb' hc' hcb'
    rw [hc] at hc'
    rw [hcb] at hcb'
    injection hc' with hc'
    injection hcb' with hcb'
    subst hc'
    subst hcb'
    have hbeq : (code == "") = false := by simp [hne]
    rw [hbeq]
    simp only [Bool.false_eq_true, if_false]
    rw [hroom]
    dsimp only
    rw [hl]
    simp
  · rename_i hnot
    exact absurd hc (by intro hx; exact (hnot _ _ hx hcb).elim)

/-! ### Point-to-point delivery helpers -/

/-- A paired sender with no callback of its own (the room's creator)
delivers to the sole listener: the listener's log receives a `peer`
copy carrying the same content and type. -/
theorem send_delivers_to_sole_listener (w2 : World) (a b cb : Nat)
    (c x : String) (t : MsgType) (hab : a ≠ b)
    (hpa : (w2.sessions a).isPaired = true)
    (hca : (w2.sessions a).pairingCode = some c) (hcne : c ≠ "")
    (hmca : (w2.sessions a).messageCallback = none)
    (hroom : roomsGet w2.rooms c = some (Room.mk a [⟨cb, b⟩])) :
    ((sendMessage w2 a x t).1.sessions b).messages
      = (w2.sessions b).messages ++
        [Message.mk (w2.nextId + 1) x t (w2.clock + 1) Sender.peer
          true] := by
  rw [sendMessage_paired_eq w2 a x t c hpa hca hcne]
  dsimp only
  rw [hroom]
  dsimp only
  rw [hmca, broadcast]
  rw [if_neg (by simp), broadcast]
  rw [deliverTo_messages_self]
  rw [setSession_sessions, if_neg (Ne.symm hab)]
  rfl

/-- The joiner's own sends are excluded from fan-out, so the creator's
session is completely untouched by them. -/
theorem send_by_joiner_no_delivery (w2 : World) (a b cb : Nat)
    (c y : String) (u : MsgType) (hab : a ≠ b)
    (hpb : (w2.sessions b).isPaired = true)
    (hcb : (w2.sessions b).pairingCode = some c) (hcne : c ≠ "")
    (hmcb : (w2.sessions b).messageCallback = some cb)
    (hroom : roomsGet w2.rooms c = some (Room.mk a [⟨cb, b⟩])) :
    (sendMessage w2 b y u).1.sessions a = w2.sessions a := by
  rw [sendMessage_paired_eq w2 b y u c hpb hcb hcne]
  dsimp only
  rw [hroom]
  dsimp only
  rw [hmcb]
  rw [broadcast_messages_excluded _ _ _ y u a ?hexc]
  case hexc =>
    intro l hl hown
    rw [List.mem_singleton] at hl
    subst hl
    exact (hab hown.symm).elim
  rw [setSession_sessions, if_neg hab]

/-! ### Claim theorems -/

/-- C4: self-pairing is rejected.  After a session generates a code
(successfully), a `joinChat` with that same code by the same session
returns `false` — the room's creator identity equals the caller's —
and the state is unchanged. -/
theorem c4_self_join_rejected (w : World) (i : Nat) (c : String)
    (kp : Bool) :
    joinChat (generateCode w i true (some c)).1 i c kp
      = ((generateCode w i true (some c)).1, Except.ok false) :=
  joinChat_self _ i c kp (Room.mk i [])
    (roomsGet_set_self w.rooms c (Room.mk i [])) rfl

/-- C5: `sendMessage` by an unpaired session (the `isPaired` flag is
down, or no pairing code is recorded) fails with `NotPairedError` and
returns the world unchanged — in particular the message log is
untouched. -/
theorem c5_unpaired_send_fails (w : World) (i : Nat) (x : String)
    (t : MsgType)
    (h : (w.sessions i).isPaired = false ∨
      (w.sessions i).pairingCode = none) :
    sendMessage w i x t = (w, Except.error ChatError.notPaired) := by
  simp only [sendMessage]
  split
  · rfl
  · rename_i code heq
    rcases h with h | h
    · rw [h]
      simp
    · rw [h] at heq
      cases heq

/-- C5 witness: the fresh session 0 of a fresh process is unpaired,
and its send fails with `NotPairedError`, leaving the world intact. -/
theorem c5_witness :
    ((initialWorld.sessions 0).isPaired = false ∨
      (initialWorld.sessions 0).pairingCode = none) ∧
    sendMessage initialWorld 0 "hello" MsgType.text
      = (initialWorld, Except.error ChatError.notPaired) :=
  ⟨Or.inl rfl,
   c5_unpaired_send_fails initialWorld 0 "hello" MsgType.text
     (Or.inl rfl)⟩

/-- C9: `leaveChat` is idempotent — a second call raises nothing and
reproduces exactly the state after the first call (same registry, same
sessions, same counters). -/
theorem c9_leave_idempotent (w : World) (i : Nat) :
    leaveChat (leaveChat w i) i = leaveChat w i := by
  have hblank : (leaveChat w i).sessions i = blankSession := by
    simp [leaveChat, setSession_sessions]
  rw [leaveChat_no_code (leaveChat w i) i (by rw [hblank]; rfl)]
  apply World.ext_of
  · rfl
  · intro j
    rw [setSession_sessions]
    by_cases h : j = i
    · rw [if_pos h, h, hblank]
    · rw [if_neg h]
  · rfl
  · rfl
  · rfl

/-- C6: when the sole subscriber of a room leaves, its callback is
removed, the now-empty room is deleted from the registry, and a later
`joinChat` with the same code (by any session) returns `false`. -/
theorem c6_sole_leave_deletes_room (w : World) (i : Nat) (code : String)
    (cb : Nat) (room : Room) (j : Nat) (kp : Bool)
    (hc : (w.sessions i).pairingCode = some code) (hne : code ≠ "")
    (hcb : (w.sessions i).messageCallback = some cb)
    (hroom : roomsGet w.rooms code = some room)
    (hl : room.listeners = [⟨cb, i⟩]) :
    roomsGet (leaveChat w i).rooms code = none ∧
    joinChat (leaveChat w i) j code kp
      = (leaveChat w i, Except.ok false) := by
  have hnone : roomsGet (leaveChat w i).rooms code = none := by
    rw [leaveChat_sole w i code cb room hc hne hcb hroom hl]
    exact roomsGet_delete_self w.rooms code
  exact ⟨hnone, joinChat_absent _ j code kp hnone⟩

/-- C6 witness: in the demo run, the joiner (session 1) is the sole
subscriber; after it leaves, code `"C"` resolves to nothing and a
fresh session 2 fails to join. -/
theorem c6_witness :
    roomsGet (leaveChat demoJoin 1).rooms "C" = none ∧
    joinChat (leaveChat demoJoin 1) 2 "C" true
      = (leaveChat demoJoin 1, Except.ok false) :=
  c6_sole_leave_deletes_room demoJoin 1 "C" 0 (Room.mk 0 [⟨0, 1⟩]) 2
    true rfl (by decide) rfl rfl rfl

/-- C10: the creator never registers a subscriber callback, so its
`leaveChat` before any peer joined skips the registry cleanup: the
room (still with an empty subscriber set) survives in the registry,
and a later `joinChat` by a different session succeeds. -/
theorem c10_creator_leave_keeps_room (w : World) (i j : Nat)
    (c : String) (hcb : (w.sessions i).messageCallback = none)
    (hij : i ≠ j) :
    Session.messageCallback
        ((generateCode w i true (some c)).1.sessions i) = none ∧
    roomsGet (leaveChat (generateCode w i true (some c)).1 i).rooms c
      = some (Room.mk i []) ∧
    (joinChat (leaveChat (generateCode w i true (some c)).1 i) j c
      true).2 = Except.ok true := by
  have hmc : Session.messageCallback
      ((generateCode w i true (some c)).1.sessions i) = none := by
    rw [generateCode_ok]
    dsimp only
    rw [setSession_sessions, if_pos rfl]
    exact hcb
  have hroom2 : roomsGet
      (leaveChat (generateCode w i true (some c)).1 i).rooms c
      = some (Room.mk i []) := by
    rw [leaveChat_no_callback (generateCode w i true (some c)).1 i hmc]
    exact roomsGet_set_self w.rooms c (Room.mk i [])
  refine ⟨hmc, hroom2, ?_⟩
  rw [joinChat_ok _ j c (Room.mk i []) hroom2 hij]

/-- C10 witness: session 0 of a fresh process generates `"C"`, leaves
immediately; the room survives with no subscribers and session 1 can
still join. -/
theorem c10_witness :
    Session.messageCallback
        ((generateCode initialWorld 0 true (some "C")).1.sessions 0)
      = none ∧
    roomsGet (leaveChat (generateCode initialWorld 0 true
      (some "C")).1 0).rooms "C" = some (Room.mk 0 []) ∧
    (joinChat (leaveChat (generateCode initialWorld 0 true
      (some "C")).1 0) 1 "C" true).2 = Except.ok true :=
  c10_creator_leave_keeps_room initialWorld 0 1 "C" rfl (by decide)

/-- C7: a paired send succeeds and appends exactly one `self` message
(`encrypted = true`, the given content and type) to the sender's own
log — anything after it is only inbound `peer` traffic — regardless of
whether any peer is subscribed; and when the room is gone from the
registry the call still succeeds with just the local echo: no other
session and no registry entry is touched. -/
theorem c7_send_local_echo (w : World) (i j : Nat) (x : String)
    (t : MsgType) (code : String)
    (hp : (w.sessions i).isPaired = true)
    (hc : (w.sessions i).pairingCode = some code) (hne : code ≠ "") :
    (sendMessage w i x t).2 = Except.ok () ∧
    (∃ extra, ((sendMessage w i x t).1.sessions i).messages
        = (w.sessions i).messages ++
          [Message.mk w.nextId x t w.clock .self true] ++ extra ∧
      ∀ m ∈ extra, m.sender = Sender.peer) ∧
    (sendMessage w i x t).1.rooms = w.rooms ∧
    (roomsGet w.rooms code = none →
      ((sendMessage w i x t).1.sessions i).messages
          = (w.sessions i).messages ++
            [Message.mk w.nextId x t w.clock .self true] ∧
      (j ≠ i → (sendMessage w i x t).1.sessions j = w.sessions j)) := by
  refine ⟨sendMessage_paired_ok w i x t code hp hc hne,
    sendMessage_log_echo w i x t code hp hc hne,
    sendMessage_rooms w i x t, ?_⟩
  intro habs
  rw [sendMessage_absent w i x t code hp hc hne habs]
  constructor
  · rw [setSession_sessions, if_pos rfl]
  · intro hji
    rw [setSession_sessions, if_neg hji]

/-- C7 witness: in the demo run the joiner has left, deleting room
`"C"`, yet the still-paired creator (session 0) can send: the call
succeeds, its log gains exactly the one `self` message, and session 1
is untouched. -/
theorem c7_witness :
    ((demoLeft.sessions 0).isPaired = true ∧
      (demoLeft.sessions 0).pairingCode = some "C" ∧ "C" ≠ "") ∧
    ((sendMessage demoLeft 0 "hi" MsgType.text).2 = Except.ok () ∧
    (∃ extra,
      ((sendMessage demoLeft 0 "hi" MsgType.text).1.sessions 0).messages
        = (demoLeft.sessions 0).messages ++
          [Message.mk demoLeft.nextId "hi" MsgType.text demoLeft.clock
            .self true] ++ extra ∧
      ∀ m ∈ extra, m.sender = Sender.peer) ∧
    (sendMessage demoLeft 0 "hi" MsgType.text).1.rooms
      = demoLeft.rooms ∧
    (roomsGet demoLeft.rooms "C" = none →
      ((sendMessage demoLeft 0 "hi" MsgType.text).1.sessions 0).messages
          = (demoLeft.sessions 0).messages ++
            [Message.mk demoLeft.nextId "hi" MsgType.text demoLeft.clock
              .self true] ∧
      (1 ≠ 0 →
        (sendMessage demoLeft 0 "hi" MsgType.text).1.sessions 1
          = demoLeft.sessions 1))) :=
  ⟨⟨rfl, rfl, by decide⟩,
   c7_send_local_echo demoLeft 0 1 "hi" MsgType.text "C" rfl rfl
     (by decide)⟩

/-- C8: the log is append-only and order-preserving.  For a paired
session (whose room, as always for distinct participants, holds no
foreign callback of its own — `noSelfDelivery`), sending the messages
of `msgs` in order appends exactly one `self` message per send, in
send order with matching content and type, never modifying or removing
existing entries; starting from fresh ids (`idsFresh`) all ids of the
resulting log are pairwise distinct. -/
theorem c8_log_append_only (w : World) (i : Nat)
    (msgs : List (String × MsgType)) (code : String)
    (hp : (w.sessions i).isPaired = true)
    (hc : (w.sessions i).pairingCode = some code) (hne : code ≠ "")
    (hns : noSelfDelivery w i) (hf : idsFresh w i) :
    ∃ news, ((sendAll w i msgs).sessions i).messages
        = (w.sessions i).messages ++ news ∧
      news.length = msgs.length ∧
      news.map (fun m => (m.content, m.type)) = msgs ∧
      (∀ m ∈ news, m.sender = Sender.self ∧ m.encrypted = true) ∧
      (((sendAll w i msgs).sessions i).messages.map
        Message.id).Pairwise (fun a b => a ≠ b) := by
  induction msgs generalizing w with
  | nil =>
    refine ⟨[], by simp [sendAll], rfl, rfl, ?_, hf.1⟩
    intro m hm
    cases hm
  | cons p rest ih =>
    obtain ⟨x, t⟩ := p
    have hp' : (((sendMessage w i x t).1.sessions i).isPaired) = true := by
      rw [(sendMessage_session_fields w i x t i).1]
      exact hp
    have hc' : (((sendMessage w i x t).1.sessions i).pairingCode)
        = some code := by
      rw [(sendMessage_session_fields w i x t i).2.1]
      exact hc
    have hns' := sendMessage_noSelfDelivery w i x t hns
    have hf' := sendMessage_idsFresh w i x t code hp hc hne hns hf
    obtain ⟨news, h1, h2, h3, h4, h5⟩ :=
      ih (sendMessage w i x t).1 hp' hc' hns' hf'
    refine ⟨Message.mk w.nextId x t w.clock .self true :: news,
      ?_, ?_, ?_, ?_, ?_⟩
    · show ((sendAll (sendMessage w i x t).1 i rest).sessions
        i).messages = _
      rw [h1, sendMessage_log_exact w i x t code hp hc hne hns]
      simp
    · simp [h2]
    · simp [h3]
    · intro m hm
      rcases List.mem_cons.mp hm with h | h
      · subst h
        exact ⟨rfl, rfl⟩
      · exact h4 m h
    · exact h5

/-- C8 witness: in the demo run the creator (session 0, empty log,
fresh ids) sends two messages; the theorem instantiates to the exact
two-element log with distinct ids. -/
theorem c8_witness :
    ((demoJoin.sessions 0).isPaired = true ∧
      (demoJoin.sessions 0).pairingCode = some "C" ∧ "C" ≠ "" ∧
      noSelfDelivery demoJoin 0 ∧ idsFresh demoJoin 0) ∧
    (∃ news, ((sendAll demoJoin 0
          [("hi", MsgType.text), ("yo", MsgType.audio)]).sessions
          0).messages
        = (demoJoin.sessions 0).messages ++ news ∧
      news.length = [("hi", MsgType.text), ("yo", MsgType.audio)].length ∧
      news.map (fun m => (m.content, m.type))
        = [("hi", MsgType.text), ("yo", MsgType.audio)] ∧
      (∀ m ∈ news, m.sender = Sender.self ∧ m.encrypted = true) ∧
      (((sendAll demoJoin 0
          [("hi", MsgType.text), ("yo", MsgType.audio)]).sessions
          0).messages.map Message.id).Pairwise (fun a b => a ≠ b)) := by
  have hns : noSelfDelivery demoJoin 0 := by
    intro co ro hco hro l hl hown
    have hco' : (some "C" : Option String) = some co := hco
    injection hco' with hcoe
    subst hcoe
    have hro' : (some (Room.mk 0 [⟨0, 1⟩]) : Option Room) = some ro :=
      hro
    injection hro' with hroe
    subst hroe
    rw [List.mem_singleton] at hl
    subst hl
    exact absurd hown (by decide)
  have hf : idsFresh demoJoin 0 := by
    constructor
    · show (List.map Message.id []).Pairwise (fun a b => a ≠ b)
      simp
    · intro m hm
      cases hm
  exact ⟨⟨rfl, rfl, by decide, hns, hf⟩,
    c8_log_append_only demoJoin 0
      [("hi", MsgType.text), ("yo", MsgType.audio)] "C" rfl rfl
      (by decide) hns hf⟩

/-- C2 counterexample: `joinChat` enforces no single-join admission.
After session 1 has successfully joined room `"C"`, the distinct
session 2 joins the very same code and also gets `true`, and the
room's subscriber set then holds two joiners. -/
theorem c2_counterexample :
    (joinChat demoGen 1 "C" true).2 = Except.ok true ∧
    (joinChat demoJoin 2 "C" true).2 = Except.ok true ∧
    roomsGet (joinChat demoJoin 2 "C" true).1.rooms "C"
      = some (Room.mk 0 [⟨0, 1⟩, ⟨1, 2⟩]) :=
  ⟨rfl, rfl, rfl⟩

/-- C2 (amended): admission checks only that the room exists and that
the caller is not its creator.  Any distinct session joining an
existing room (with working crypto) is admitted, regardless of how
many subscribers the room already has — the subscriber set may grow
beyond one joiner. -/
theorem c2_join_admission (w : World) (i : Nat) (code : String)
    (room : Room) (h : roomsGet w.rooms code = some room)
    (hcr : room.creator ≠ i) :
    (joinChat w i code true).2 = Except.ok true := by
  rw [joinChat_ok w i code room h hcr]

/-- C2 witness: session 2 is admitted into room `"C"` even though
session 1 already subscribes to it. -/
theorem c2_witness : (joinChat demoJoin 2 "C" true).2 = Except.ok true :=
  c2_join_admission demoJoin 2 "C" (Room.mk 0 [⟨0, 1⟩]) rfl (by decide)

/-- C3 counterexample: the `CryptoError` of `generateKeyPair` is not
propagated out of `joinChat`.  Joining the existing, non-self room
`"C"` with a failing key generation returns the boolean result
`false` (state unchanged, so still unpaired) instead of surfacing the
error. -/
theorem c3_counterexample :
    joinChat demoGen 1 "C" false = (demoGen, Except.ok false) ∧
    ((joinChat demoGen 1 "C" false).1.sessions 1).isPaired = false :=
  ⟨joinChat_kp_fail demoGen 1 "C" (Room.mk 0 []) rfl (by decide), rfl⟩

/-- C3 (amended): when `generateKeyPair` fails during `joinChat` on an
existing room created by someone else, the error is caught inside
`joinChat`, which returns `false` to its caller; no state changes, so
the session remains unpaired. -/
theorem c3_join_kp_failure_returns_false (w : World) (i : Nat)
    (code : String) (room : Room)
    (h : roomsGet w.rooms code = some room) (hcr : room.creator ≠ i) :
    joinChat w i code false = (w, Except.ok false) :=
  joinChat_kp_fail w i code room h hcr

/-- C3 witness: session 1's join of `"C"` with failing key generation
yields `false` with the world unchanged. -/
theorem c3_witness :
    joinChat demoGen 1 "C" false = (demoGen, Except.ok false) :=
  c3_join_kp_failure_returns_false demoGen 1 "C" (Room.mk 0 [])
    rfl (by decide)

/-- C1 counterexample: delivery is not symmetric.  Session 1's join of
session 0's room `"C"` returned true and its send succeeds, yet
nothing ever arrives in session 0's log — the creator never registered
a callback, so its log stays empty. -/
theorem c1_counterexample :
    (joinChat demoGen 1 "C" true).2 = Except.ok true ∧
    (sendMessage demoJoin 1 "yo" MsgType.text).2 = Except.ok () ∧
    ((sendMessage demoJoin 1 "yo" MsgType.text).1.sessions 0).messages
      = [] :=
  ⟨rfl, rfl, rfl⟩

/-- C1 (amended): pairing delivers one way only.  After session `a`
(fresh: no callback of its own) generates code `c` and a distinct
session `b` joins it, `joinChat` returns `true` and every message sent
by `a` arrives in `b`'s log as a `peer` message with identical content
and type.  In the other direction nothing is delivered: the creator
registered no subscriber and `b`'s own callback is excluded from
fan-out, so a send by `b` leaves `a`'s session untouched. -/
theorem c1_delivery_is_one_way (w : World) (a b : Nat) (c x y : String)
    (t u : MsgType) (hab : a ≠ b)
    (hacb : (w.sessions a).messageCallback = none) (hcne : c ≠ "") :
    (joinChat (generateCode w a true (some c)).1 b c true).2
      = Except.ok true ∧
    ((sendMessage (joinChat (generateCode w a true (some c)).1 b c
        true).1 a x t).1.sessions b).messages
      = (w.sessions b).messages ++
        [Message.mk (w.nextId + 1) x t (w.clock + 1) Sender.peer
          true] ∧
    (sendMessage (joinChat (generateCode w a true (some c)).1 b c
        true).1 b y u).1.sessions a
      = (joinChat (generateCode w a true (some c)).1 b c
        true).1.sessions a := by
  have hg1 : roomsGet (generateCode w a true (some c)).1.rooms c
      = some (Room.mk a []) :=
    roomsGet_set_self w.rooms c (Room.mk a [])
  have hcr : (Room.mk a []).creator ≠ b := hab
  have hj := joinChat_ok (generateCode w a true (some c)).1 b c
    (Room.mk a []) hg1 hcr
  have hW2a : (joinChat (generateCode w a true (some c)).1 b c
      true).1.sessions a
      = { w.sessions a with
            pairingCode := some c, isPaired := true } := by
    rw [hj]
    dsimp only
    rw [setSession_sessions, if_neg hab]
    rw [generateCode_ok]
    dsimp only
    rw [setSession_sessions, if_pos rfl]
  have hW2bmsg : ((joinChat (generateCode w a true (some c)).1 b c
      true).1.sessions b).messages = (w.sessions b).messages := by
    rw [hj]
    dsimp only
    rw [setSession_sessions, if_pos rfl]
    dsimp only
    rw [generateCode_ok]
    dsimp only
    rw [setSession_sessions, if_neg (Ne.symm hab)]
  have hroom2 : roomsGet (joinChat (generateCode w a true (some c)).1
      b c true).1.rooms c = some (Room.mk a [⟨w.nextCb, b⟩]) := by
    rw [hj]
    dsimp only
    exact roomsGet_set_self ((generateCode w a true (some c)).1.rooms)
      c (Room.mk a [⟨w.nextCb, b⟩])
  have hpa : ((joinChat (generateCode w a true (some c)).1 b c
      true).1.sessions a).isPaired = true := by
    rw [hW2a]
  have hca : ((joinChat (generateCode w a true (some c)).1 b c
      true).1.sessions a).pairingCode = some c := by
    rw [hW2a]
  have hmca : ((joinChat (generateCode w a true (some c)).1 b c
      true).1.sessions a).messageCallback = none := by
    rw [hW2a]
    exact hacb
  have hnid : (joinChat (generateCode w a true (some c)).1 b c
      true).1.nextId = w.nextId := by
    rw [hj]
    rfl
  have hclk : (joinChat (generateCode w a true (some c)).1 b c
      true).1.clock = w.clock := by
    rw [hj]
    rfl
  have hpb : ((joinChat (generateCode w a true (some c)).1 b c
      true).1.sessions b).isPaired = true := by
    rw [hj]
    dsimp only
    rw [setSession_sessions, if_pos rfl]
  have hcb2 : ((joinChat (generateCode w a true (some c)).1 b c
      true).1.sessions b).pairingCode = some c := by
    rw [hj]
    dsimp only
    rw [setSession_sessions, if_pos rfl]
  have hmcb : ((joinChat (generateCode w a true (some c)).1 b c
      true).1.sessions b).messageCallback = some w.nextCb := by
    rw [hj]
    dsimp only
    rw [setSession_sessions, if_pos rfl]
    rfl
  refine ⟨by rw [hj], ?_, ?_⟩
  · have h2 := send_delivers_to_sole_listener _ a b w.nextCb c x t hab
      hpa hca hcne hmca hroom2
    rw [h2, hW2bmsg, hnid, hclk]
  · exact send_by_joiner_no_delivery _ a b w.nextCb c y u hab hpb hcb2
      hcne hmcb hroom2

/-- C1 witness: the concrete two-session run — 0 generates `"C"`,
1 joins, 0's "hi" arrives in 1's log as a peer message, 1's "yo"
leaves 0's session untouched. -/
theorem c1_witness :
    (joinChat (generateCode initialWorld 0 true (some "C")).1 1 "C"
      true).2 = Except.ok true ∧
    ((sendMessage (joinChat (generateCode initialWorld 0 true
        (some "C")).1 1 "C" true).1 0 "hi" MsgType.text).1.sessions
        1).messages
      = (initialWorld.sessions 1).messages ++
        [Message.mk (initialWorld.nextId + 1) "hi" MsgType.text
          (initialWorld.clock + 1) Sender.peer true] ∧
    (sendMessage (joinChat (generateCode initialWorld 0 true
        (some "C")).1 1 "C" true).1 1 "yo" MsgType.audio).1.sessions 0
      = (joinChat (generateCode initialWorld 0 true (some "C")).1 1
        "C" true).1.sessions 0 :=
  c1_delivery_is_one_way initialWorld 0 1 "C" "hi" "yo" MsgType.text
    MsgType.audio (by decide) rfl (by decide)
